import Mathlib

/-!
Verification of the CloudFront signed-cookie signer.

The development embeds the Python module `cloudfront_signed_cookies/signer.py`
shallowly: Python dicts become association lists in construction order, Python
values become the inductive type `JVal`, fallible code returns `Except`, and
the clock and the RSA primitive (external collaborators) become explicit
parameters.  Names follow the source where Lean permits.
-/

namespace CFSC

/-- Model of a Python value as it can appear inside a policy document:
integers, strings, booleans, None, lists, and dicts (association lists kept
in insertion order; Python dicts have unique keys). -/
inductive JVal where
  | int (n : Int)
  | str (s : String)
  | bool (b : Bool)
  | null
  | arr (items : List JVal)
  | obj (entries : List (String × JVal))

/-- Python dict with string keys, in insertion order. -/
abbrev PyDict := List (String × JVal)

/-- Dict subscript lookup: first entry with the given key. -/
def pyLookup (d : PyDict) (k : String) : Option JVal :=
  match d with
  | [] => none
  | (k2, v) :: rest => if k2 = k then some v else pyLookup rest k

/-- Python truthiness of a `JVal` (used by `if statements:` and `if Policy:`). -/
def pyTruthy : JVal → Bool
  | .int n => decide (n ≠ 0)
  | .str s => decide (s ≠ "")
  | .bool b => b
  | .null => false
  | .arr [] => false
  | .arr (_ :: _) => true
  | .obj [] => false
  | .obj (_ :: _) => true

/-- Rendering of `type(v)` as Python prints it in an f-string. -/
def pyTypeName : JVal → String
  | .int _ => "<class \x27int\x27>"
  | .str _ => "<class \x27str\x27>"
  | .bool _ => "<class \x27bool\x27>"
  | .null => "<class \x27NoneType\x27>"
  | .arr _ => "<class \x27list\x27>"
  | .obj _ => "<class \x27dict\x27>"

/-- Lowercase hex digit, as the `json` module emits in escape sequences. -/
def hexDigit (n : Nat) : Char :=
  if n < 10 then Char.ofNat (48 + n) else Char.ofNat (87 + n)

/-- Four lowercase hex digits of a code unit below 0x10000. -/
def hex4 (n : Nat) : List Char :=
  [hexDigit (n / 4096 % 16), hexDigit (n / 256 % 16), hexDigit (n / 16 % 16), hexDigit (n % 16)]

/-- Escape of one character inside a JSON string literal, following
`json.dumps` with its default `ensure_ascii=True`: two-character shorts for
the usual control characters, `\uXXXX` (with surrogate pairs beyond the BMP)
for the rest outside `0x20..0x7E`, and the character itself otherwise. -/
def pyEscapeChar (c : Char) : List Char :=
  if c = '"' then ['\\', '"']
  else if c = '\\' then ['\\', '\\']
  else if c = '\n' then ['\\', 'n']
  else if c = '\r' then ['\\', 'r']
  else if c = '\t' then ['\\', 't']
  else if c.toNat = 8 then ['\\', 'b']
  else if c.toNat = 12 then ['\\', 'f']
  else if c.toNat < 0x20 ∨ 0x7E < c.toNat then
    if c.toNat < 0x10000 then '\\' :: 'u' :: hex4 c.toNat
    else ('\\' :: 'u' :: hex4 (0xD800 + (c.toNat - 0x10000) / 1024)) ++
         ('\\' :: 'u' :: hex4 (0xDC00 + (c.toNat - 0x10000) % 1024))
  else [c]

/-- JSON string literal for `s`, double-quoted with escapes. -/
def pyQuoteStr (s : String) : String :=
  ⟨'"' :: (s.data.flatMap pyEscapeChar ++ ['"'])⟩

/-- Decimal rendering of a Python int (`repr`, as `json.dumps` emits it). -/
def intDump (n : Int) : String := toString n

mutual

/-- Serialization of a value exactly as `json.dumps` with default separators
would print it: keys in insertion order, elements joined by a comma and a
space, key and value joined by a colon and a space. -/
def pyDumps : JVal → String
  | .int n => intDump n
  | .str s => pyQuoteStr s
  | .bool true => "true"
  | .bool false => "false"
  | .null => "null"
  | .arr items => "[" ++ dumpElems items ++ "]"
  | .obj entries => "\x7b" ++ dumpEntries entries ++ "\x7d"

/-- Elements of a JSON array, joined by a comma and a space. -/
def dumpElems : List JVal → String
  | [] => ""
  | [v] => pyDumps v
  | v :: rest => pyDumps v ++ ", " ++ dumpElems rest

/-- Entries of a JSON object in list (construction) order, each rendered as
quoted key, colon, space, value, joined by a comma and a space. -/
def dumpEntries : List (String × JVal) → String
  | [] => ""
  | [(k, v)] => pyQuoteStr k ++ ": " ++ pyDumps v
  | (k, v) :: rest => pyQuoteStr k ++ ": " ++ pyDumps v ++ ", " ++ dumpEntries rest

end

/-- Removal of every ASCII space character, the `.replace(" ", "")` step. -/
def stripSpaces (s : String) : String :=
  ⟨s.data.filter (fun c => c ≠ ' ')⟩

/-- Embeds `Signer._to_json`: `dumps(s).replace(" ", "")`. -/
def _to_json (s : JVal) : String :=
  stripSpaces (pyDumps s)

/-- Replacement of every occurrence of character `a` by `b`, the semantics of
`str.replace` when both arguments are single characters. -/
def replaceAllChar (a b : Char) (s : String) : String :=
  ⟨s.data.map (fun c => if c = a then b else c)⟩

/-- Embeds `Signer._sanitize_b64`: sequentially replaces every plus sign by a
hyphen, every equals sign by an underscore, and every slash by a tilde. -/
def _sanitize_b64 (s : String) : String :=
  replaceAllChar '/' '~' (replaceAllChar '=' '_' (replaceAllChar '+' '-' s))

/-- Reverse of the three-character substitution, as the spec describes the
decoding side: hyphen back to plus, underscore back to equals, tilde back to
slash. -/
def unsubChar (c : Char) : Char :=
  if c = '-' then '+' else if c = '_' then '=' else if c = '~' then '/' else c

/-- Reversal of `_sanitize_b64` (spec-side decoding step). -/
def unsanitize (s : String) : String :=
  ⟨s.data.map unsubChar⟩

/-- Standard base64 alphabet in index order. -/
def b64alphabet : List Char :=
  "ABCDEFGHIJKLMNOPQRSTUVWXYZabcdefghijklmnopqrstuvwxyz0123456789+/".data

/-- Character of the base64 alphabet at a sextet value. -/
def char64 (n : Nat) : Char :=
  b64alphabet.getD n 'A'

/-- Position of a character in a list, counting from `i`. -/
def indexFrom (c : Char) (i : Nat) : List Char → Option Nat
  | [] => none
  | x :: xs => if x = c then some i else indexFrom c (i + 1) xs

/-- Sextet value of a base64 alphabet character. -/
def index64 (c : Char) : Option Nat :=
  indexFrom c 0 b64alphabet

/-- Standard base64 encoding of a byte list (bytes as naturals below 256),
three bytes to four characters with equals-sign padding, as `b64encode`. -/
def b64chunks : List Nat → List Char
  | a :: b :: c :: rest =>
      char64 (a / 4) :: char64 (a % 4 * 16 + b / 16) ::
      char64 (b % 16 * 4 + c / 64) :: char64 (c % 64) :: b64chunks rest
  | [a, b] => [char64 (a / 4), char64 (a % 4 * 16 + b / 16), char64 (b % 16 * 4), '=']
  | [a] => [char64 (a / 4), char64 (a % 4 * 16), '=', '=']
  | [] => []

/-- Base64 encoding as a string, the `b64encode(...).decode()` step. -/
def b64encode (bytes : List Nat) : String :=
  ⟨b64chunks bytes⟩

/-- Standard base64 decoding (spec-side), four characters to three bytes,
understanding equals-sign padding in the final quartet. -/
def b64decodeChunks : List Char → Option (List Nat)
  | [] => some []
  | c1 :: c2 :: c3 :: c4 :: rest =>
    match index64 c1, index64 c2 with
    | some s1, some s2 =>
      if c3 = '=' then
        if c4 = '=' ∧ rest = [] then some [s1 * 4 + s2 / 16] else none
      else
        match index64 c3 with
        | some s3 =>
          if c4 = '=' then
            if rest = [] then some [s1 * 4 + s2 / 16, s2 % 16 * 16 + s3 / 4] else none
          else
            match index64 c4 with
            | some s4 =>
                (b64decodeChunks rest).map
                  (fun bs => (s1 * 4 + s2 / 16) :: (s2 % 16 * 16 + s3 / 4) :: (s3 % 4 * 64 + s4) :: bs)
            | none => none
        | none => none
    | _, _ => none
  | _ => none

/-- Base64 decoding of a string to bytes (spec-side). -/
def b64decode (s : String) : Option (List Nat) :=
  b64decodeChunks s.data

/-- UTF-8 bytes of one character. -/
def utf8Bytes (c : Char) : List Nat :=
  if c.toNat < 0x80 then [c.toNat]
  else if c.toNat < 0x800 then [0xC0 + c.toNat / 64, 0x80 + c.toNat % 64]
  else if c.toNat < 0x10000 then
    [0xE0 + c.toNat / 4096, 0x80 + c.toNat / 64 % 64, 0x80 + c.toNat % 64]
  else
    [0xF0 + c.toNat / 0x40000, 0x80 + c.toNat / 4096 % 64,
     0x80 + c.toNat / 64 % 64, 0x80 + c.toNat % 64]

/-- UTF-8 encoding of a string, the `.encode("utf8")` / `.encode()` step. -/
def strUtf8 (s : String) : List Nat :=
  s.data.flatMap utf8Bytes

mutual

/-- UTF-8 decoding of a byte list to characters (spec-side), rejecting
truncated sequences, stray continuation bytes, overlong forms, surrogates and
out-of-range code points. -/
def utf8DecodeList : List Nat → Option (List Char)
  | [] => some []
  | b1 :: rest =>
    if b1 < 0x80 then (utf8DecodeList rest).map (fun cs => Char.ofNat b1 :: cs)
    else if b1 < 0xC2 then none
    else if b1 < 0xE0 then utf8Cont1 b1 rest
    else if b1 < 0xF0 then utf8Cont2 b1 rest
    else if b1 < 0xF5 then utf8Cont3 b1 rest
    else none

/-- Continuation of a two-byte UTF-8 sequence with lead byte `b1`. -/
def utf8Cont1 (b1 : Nat) : List Nat → Option (List Char)
  | b2 :: rest =>
    if 0x80 ≤ b2 ∧ b2 < 0xC0 then
      (utf8DecodeList rest).map (fun cs => Char.ofNat ((b1 - 0xC0) * 64 + (b2 - 0x80)) :: cs)
    else none
  | [] => none

/-- Continuation of a three-byte UTF-8 sequence with lead byte `b1`. -/
def utf8Cont2 (b1 : Nat) : List Nat → Option (List Char)
  | b2 :: b3 :: rest =>
    if (0x80 ≤ b2 ∧ b2 < 0xC0) ∧ (0x80 ≤ b3 ∧ b3 < 0xC0) ∧
        0x800 ≤ (b1 - 0xE0) * 4096 + (b2 - 0x80) * 64 + (b3 - 0x80) ∧
        ((b1 - 0xE0) * 4096 + (b2 - 0x80) * 64 + (b3 - 0x80) < 0xD800 ∨
          0xE000 ≤ (b1 - 0xE0) * 4096 + (b2 - 0x80) * 64 + (b3 - 0x80)) then
      (utf8DecodeList rest).map
        (fun cs => Char.ofNat ((b1 - 0xE0) * 4096 + (b2 - 0x80) * 64 + (b3 - 0x80)) :: cs)
    else none
  | _ => none

/-- Continuation of a four-byte UTF-8 sequence with lead byte `b1`. -/
def utf8Cont3 (b1 : Nat) : List Nat → Option (List Char)
  | b2 :: b3 :: b4 :: rest =>
    if (0x80 ≤ b2 ∧ b2 < 0xC0) ∧ (0x80 ≤ b3 ∧ b3 < 0xC0) ∧ (0x80 ≤ b4 ∧ b4 < 0xC0) ∧
        0x10000 ≤ (b1 - 0xF0) * 0x40000 + (b2 - 0x80) * 4096 + (b3 - 0x80) * 64 + (b4 - 0x80) ∧
        (b1 - 0xF0) * 0x40000 + (b2 - 0x80) * 4096 + (b3 - 0x80) * 64 + (b4 - 0x80) < 0x110000 then
      (utf8DecodeList rest).map
        (fun cs =>
          Char.ofNat ((b1 - 0xF0) * 0x40000 + (b2 - 0x80) * 4096 + (b3 - 0x80) * 64 + (b4 - 0x80)) :: cs)
    else none
  | _ => none

end

/-- UTF-8 decoding of a byte list to a string (spec-side). -/
def utf8DecodeStr (l : List Nat) : Option String :=
  (utf8DecodeList l).map (fun cs => ⟨cs⟩)

/-- Exceptions the module can raise: the three classes of `errors.py`, plus
the builtin `ValueError` and `TypeError` used directly by the source. -/
inductive PyErr where
  | invalidCloudFrontKeyId (msg : String)
  | invalidCustomPolicy (msg : String)
  | privateKeyNotFound (msg : String)
  | valueError (msg : String)
  | typeError (msg : String)
deriving DecidableEq

/-- State a `Signer` object keeps after construction: the CloudFront key id
(the loaded private-key handle is an external collaborator and carries no
information the claims need). -/
structure Signer where
  cloudfront_key_id : String
deriving DecidableEq

/-- Class constant `Signer.HASH_ALGORITHM`. -/
def Signer.HASH_ALGORITHM : String := "SHA-384"

/-- Lowercase hex digit test, the character class of the key-id pattern. -/
def isHexLower (c : Char) : Bool :=
  ('0' ≤ c ∧ c ≤ '9') ∨ ('a' ≤ c ∧ c ≤ 'f')

/-- Consumption of exactly `n` lowercase hex characters, returning the rest. -/
def takeHex : Nat → List Char → Option (List Char)
  | 0, cs => some cs
  | _ + 1, [] => none
  | n + 1, c :: cs => if isHexLower c then takeHex n cs else none

/-- Consumption of one hyphen, returning the rest. -/
def takeDash : List Char → Option (List Char)
  | [] => none
  | c :: cs => if c = '-' then some cs else none

/-- Consumption of the 8-4-4-4-12 lowercase-hex UUID body (the word
boundaries in the source pattern sit between a hex character and a hyphen
and therefore always match). -/
def uuidChain (cs : List Char) : Option (List Char) :=
  (takeHex 8 cs).bind (fun r1 =>
    (takeDash r1).bind (fun r2 =>
      (takeHex 4 r2).bind (fun r3 =>
        (takeDash r3).bind (fun r4 =>
          (takeHex 4 r4).bind (fun r5 =>
            (takeDash r5).bind (fun r6 =>
              (takeHex 4 r6).bind (fun r7 =>
                (takeDash r7).bind (fun r8 =>
                  takeHex 12 r8))))))))

/-- Python `re.match` of the key-id pattern: anchored at the start, and the
dollar anchor accepts either the end of the string or a position just before
a single final newline. -/
def reMatchKeyId (s : String) : Bool :=
  match uuidChain s.data with
  | some rest => decide (rest = [] ∨ rest = ['\n'])
  | none => false

/-- Spec-side strict reading of the key-id constraint: the whole string is an
8-4-4-4-12 lowercase-hex UUID, nothing more. -/
def specUuidFormat (s : String) : Bool :=
  decide (uuidChain s.data = some [])

/-- Embeds `Signer.__init__`.  The key-id format check runs first; reading
the key material (an external collaborator) is abstracted to whether the
path resolves, as `os.path.exists`. -/
def Signer.init (cloudfront_key_id : String) (priv_key_file_exists : Bool) :
    Except PyErr Signer :=
  if reMatchKeyId cloudfront_key_id = false then
    .error (.invalidCloudFrontKeyId "CloudFront public key ID must be a UUID string")
  else if priv_key_file_exists then
    .ok ⟨cloudfront_key_id⟩
  else
    .error (.privateKeyNotFound "private key file not found")

/-- Message hash choices of the `cryptography` primitive the model needs. -/
inductive HashAlg where
  | sha1
  | sha256
  | sha384
  | sha512
deriving DecidableEq

/-- Mask generation function argument of PSS padding. -/
inductive MGF where
  | mgf1 (hash : HashAlg)
deriving DecidableEq

/-- Salt length argument of PSS padding; `maxLength` is `PSS.MAX_LENGTH`. -/
inductive SaltLength where
  | maxLength
  | digestLength
  | fixed (n : Nat)
deriving DecidableEq

/-- Argument record of one call to `priv_key.sign`: the message bytes and
the padding and hash configuration. -/
structure SignRequest where
  data : List Nat
  paddingMgf : MGF
  paddingSaltLength : SaltLength
  algorithm : HashAlg
deriving DecidableEq

/-- Embeds the argument construction of `Signer._sign`: the UTF-8 bytes of
the policy string, PSS padding with MGF1 over SHA-384 and maximal salt
length, and SHA-384 as the message hash — with no configuration input. -/
def signRequestFor (policy : String) : SignRequest :=
  { data := strUtf8 policy
    paddingMgf := .mgf1 .sha384
    paddingSaltLength := .maxLength
    algorithm := .sha384 }

/-- Embeds `Signer._sign`, with the RSA primitive (external collaborator)
passed as a function from the argument record to the signature bytes. -/
def _sign (rsaSign : SignRequest → List Nat) (policy : String) : List Nat :=
  rsaSign (signRequestFor policy)

/-- Outcome of a Python subscript `v[k]` with a string key: the value, a
`KeyError` (caught by the validator), or a `TypeError` (not caught). -/
inductive SubErr where
  | keyError
  | typeError (msg : String)
deriving DecidableEq

/-- Python string rendering used when a value is interpolated into an
f-string; container reprs are approximated with single-quoted strings. -/
def pyStrOf : JVal → String
  | .int n => intDump n
  | .str s => s
  | .bool true => "True"
  | .bool false => "False"
  | .null => "None"
  | .arr _ => "<list>"
  | .obj _ => "<dict>"

/-- Subscript `v[k]` for a string key `k`. -/
def getItem (v : JVal) (k : String) : Except SubErr JVal :=
  match v with
  | .obj d =>
    match pyLookup d k with
    | some x => .ok x
    | none => .error .keyError
  | .arr _ => .error (.typeError "list indices must be integers or slices, not str")
  | .str _ => .error (.typeError "string indices must be integers")
  | other => .error (.typeError (pyTypeName other ++ " object is not subscriptable"))

/-- Sub-key the source's `allowed_condition_key_subkeys` dict assigns to a
condition kind (only consulted after the kind passed the allowed-keys test). -/
def allowedSubkey (key : String) : String :=
  if key = "IpAddress" then "AWS:SourceIp" else "AWS:EpochTime"

/-- Exact-type tests `type(x) == int` and `type(x) == str` (a Python bool is
not an exact int, and only these exact classes pass). -/
def typeIsInt : JVal → Bool
  | .int _ => true
  | _ => false

/-- Exact-type test `type(x) == str`. -/
def typeIsStr : JVal → Bool
  | .str _ => true
  | _ => false

/-- Loop body of `_validate_custom_policy` over the sub-keys of one
condition kind's mapping.  The second branch keeps the source's comparison
of the sub-key against the string `IpAddress` — which no sub-key ever
equals — rather than against `AWS:SourceIp`. -/
def checkSubkeys (key : String) (sub : List (String × JVal)) : Except PyErr Unit :=
  match sub with
  | [] => .ok ()
  | (sk, sv) :: rest =>
    if sk ≠ allowedSubkey key then
      .error (.invalidCustomPolicy ("invalid condition key sub-key found: " ++ sk))
    else if sk = "AWS:EpochTime" ∧ typeIsInt sv = false then
      .error (.invalidCustomPolicy
        ("AWS:EpochTime value must be of type \x27int\x27, not " ++ pyTypeName sv))
    else if sk = "IpAddress" ∧ typeIsStr sv = false then
      .error (.invalidCustomPolicy
        (sk ++ " value must be of type \x27str\x27, not " ++ pyTypeName sv))
    else
      checkSubkeys key rest

/-- Loop of `_validate_custom_policy` over the entries of a `Condition`
dict: the key must be one of the three recognized kinds, its value must be
an exact dict, and the sub-keys of that dict are then checked. -/
def checkConditions : List (String × JVal) → Except PyErr Unit
  | [] => .ok ()
  | (key, v) :: rest =>
    if key ≠ "DateLessThan" ∧ key ≠ "DateGreaterThan" ∧ key ≠ "IpAddress" then
      .error (.invalidCustomPolicy
        ("invalid condition key: " ++ key ++
         " - key must be DateLessThan, DateGreaterThan, or IpAddress"))
    else
      match v with
      | .obj sub =>
        match checkSubkeys key sub with
        | .ok _ => checkConditions rest
        | .error e => .error e
      | other =>
        .error (.invalidCustomPolicy
          ("condition key value must be of type \x27dict\x27, not " ++ pyTypeName other))

/-- Iteration `for key in conditions` when `conditions` is not a dict: a
list yields its elements as keys (a recognized key then hits a list
subscript with a string index), a string yields its one-character slices
(never a recognized key), anything else is not iterable. -/
def iterConditions (conditions : JVal) : Except PyErr Unit :=
  match conditions with
  | .obj d => checkConditions d
  | .arr [] => .ok ()
  | .arr (e :: _) =>
    match e with
    | .str s =>
      if s = "DateLessThan" ∨ s = "DateGreaterThan" ∨ s = "IpAddress" then
        .error (.typeError "list indices must be integers or slices, not str")
      else
        .error (.invalidCustomPolicy
          ("invalid condition key: " ++ s ++
           " - key must be DateLessThan, DateGreaterThan, or IpAddress"))
    | other =>
      .error (.invalidCustomPolicy
        ("invalid condition key: " ++ pyStrOf other ++
         " - key must be DateLessThan, DateGreaterThan, or IpAddress"))
  | .str s =>
    match s.data with
    | [] => .ok ()
    | c :: _ =>
      .error (.invalidCustomPolicy
        ("invalid condition key: " ++ String.mk [c] ++
         " - key must be DateLessThan, DateGreaterThan, or IpAddress"))
  | other => .error (.typeError (pyTypeName other ++ " object is not iterable"))

/-- Read of `Condition` then `Resource` from the examined statement (the
shared `try` body), translating a `KeyError` from either subscript into the
missing-Condition `InvalidCustomPolicy` and letting a `TypeError` escape. -/
def getCondRes (stmt : JVal) : Except PyErr (JVal × JVal) :=
  match getItem stmt "Condition" with
  | .error .keyError => .error (.invalidCustomPolicy "policy statement must have Condition block")
  | .error (.typeError m) => .error (.typeError m)
  | .ok conds =>
    match getItem stmt "Resource" with
    | .error .keyError => .error (.invalidCustomPolicy "policy statement must have Condition block")
    | .error (.typeError m) => .error (.typeError m)
    | .ok res => .ok (conds, res)

/-- Selection of the conditions and resource from the `Statement` value: a
list is examined at element 0 only, a dict is examined directly, and any
other truthy value falls through keeping the initial bindings
`conditions = ` empty dict and `resource = ` empty string. -/
def condResOf (statements : JVal) : Except PyErr (JVal × JVal) :=
  match statements with
  | .arr [] => .error (.invalidCustomPolicy "policy statement is empty")
  | .arr (statement :: _) => getCondRes statement
  | .obj d => getCondRes (.obj d)
  | _ => .ok (.obj [], .str "")

/-- Final `Resource` exact-type check, raising the builtin `TypeError`. -/
def checkResource (resource : JVal) : Except PyErr Unit :=
  if typeIsStr resource = false then
    .error (.typeError
      ("provided Resource must be of type \x27str\x27, not \x27" ++ pyTypeName resource ++ "\x27"))
  else
    .ok ()

/-- Embeds `Signer._validate_custom_policy`. -/
def _validate_custom_policy (policy : PyDict) : Except PyErr Unit :=
  match pyLookup policy "Statement" with
  | none => .error (.invalidCustomPolicy "policy is missing Statement")
  | some statements =>
    if pyTruthy statements = false then
      .error (.invalidCustomPolicy "policy statement is empty")
    else
      match condResOf statements with
      | .error e => .error e
      | .ok (conditions, resource) =>
        match iterConditions conditions with
        | .error e => .error e
        | .ok _ => checkResource resource

/-- Policy document `_make_canned_policy` constructs before serializing. -/
def cannedPolicyVal (resource : String) (expiration_date : Int) : JVal :=
  .obj [("Statement", .arr [
    .obj [("Resource", .str resource),
          ("Condition", .obj [("DateLessThan", .obj [("AWS:EpochTime", .int expiration_date)])])]])]

/-- Embeds `Signer._make_canned_policy`. -/
def _make_canned_policy (resource : String) (expiration_date : Int) : String :=
  _to_json (cannedPolicyVal resource expiration_date)

/-- Policy-selection prefix of `generate_cookies`: a truthy (non-empty)
`Policy` dict is validated and serialized as-is; otherwise an empty
`Resource` raises `ValueError`; otherwise the canned policy is built with
expiration `now + SecondsBeforeExpires` in whole epoch seconds (the clock,
an external collaborator, enters as `now`). -/
def buildPolicyString (now : Int) (Resource : String) (Policy : PyDict)
    (SecondsBeforeExpires : Int) : Except PyErr String :=
  if Policy.isEmpty = false then
    match _validate_custom_policy Policy with
    | .error e => .error e
    | .ok _ => .ok (_to_json (.obj Policy))
  else if Resource = "" then
    .error (.valueError "must provide a resource URL")
  else
    .ok (_make_canned_policy Resource (now + SecondsBeforeExpires))

/-- Cookie dict built from the canonical policy string: base64 of its UTF-8
bytes and of the signature bytes, both sanitized, and the key id verbatim. -/
def cookiesFrom (S : Signer) (rsaSign : SignRequest → List Nat) (policy : String) :
    List (String × String) :=
  [("CloudFront-Policy", _sanitize_b64 (b64encode (strUtf8 policy))),
   ("CloudFront-Signature", _sanitize_b64 (b64encode (_sign rsaSign policy))),
   ("CloudFront-Key-Pair-Id", S.cloudfront_key_id)]

/-- Embeds `Signer.generate_cookies`. -/
def generate_cookies (S : Signer) (now : Int) (rsaSign : SignRequest → List Nat)
    (Resource : String := "") (Policy : PyDict := []) (SecondsBeforeExpires : Int := 900) :
    Except PyErr (List (String × String)) :=
  match buildPolicyString now Resource Policy SecondsBeforeExpires with
  | .error e => .error e
  | .ok policy => .ok (cookiesFrom S rsaSign policy)

/-- Lookup in the returned cookie dict. -/
def cookieLookup (c : List (String × String)) (k : String) : Option String :=
  match c with
  | [] => none
  | (k2, v) :: rest => if k2 = k then some v else cookieLookup rest k

/-- Spec-side decoding of the policy cookie value: reverse the character
substitution, base64-decode, then UTF-8-decode. -/
def decodePolicyCookie (cv : String) : Option String :=
  match b64decode (unsanitize cv) with
  | some bytes => utf8DecodeStr bytes
  | none => none

theorem data_append (a b : String) : (a ++ b).data = a.data ++ b.data := rfl

theorem stripSpaces_data (s : String) :
    (stripSpaces s).data = s.data.filter (fun c => c ≠ ' ') := rfl

theorem mem_stripSpaces_ne_space (s : String) :
    ∀ c ∈ (stripSpaces s).data, c ≠ ' ' := by
  intro c hc
  rw [stripSpaces_data, List.mem_filter] at hc
  exact of_decide_eq_true hc.2

theorem stripSpaces_idem (s : String) :
    stripSpaces (stripSpaces s) = stripSpaces s := by
  unfold stripSpaces
  congr 1
  exact List.filter_eq_self.mpr (fun c hc => by
    rw [List.mem_filter] at hc
    exact hc.2)

theorem pyDumps_obj (entries : PyDict) :
    pyDumps (.obj entries) = "\x7b" ++ dumpEntries entries ++ "\x7d" := rfl

theorem index64_char64 : ∀ n, n < 64 → index64 (char64 n) = some n := by decide

theorem char64_ne_pad : ∀ n, n < 64 → char64 n ≠ '=' := by decide

/-- Per-character effect of the three sequential replacements. -/
def sanitizeChar (c : Char) : Char :=
  let c1 := if c = '+' then '-' else c
  let c2 := if c1 = '=' then '_' else c1
  if c2 = '/' then '~' else c2

theorem sanitize_b64_data (s : String) :
    (_sanitize_b64 s).data = s.data.map sanitizeChar := by
  simp only [_sanitize_b64, replaceAllChar, List.map_map]
  rfl

theorem sanitizeChar_char64 :
    ∀ n, n < 64 → unsubChar (sanitizeChar (char64 n)) = char64 n := by decide

theorem sanitizeChar_pad : unsubChar (sanitizeChar '=') = '=' := by decide

theorem b64chunks_chars {l : List Nat} (h : ∀ x ∈ l, x < 256) :
    ∀ c ∈ b64chunks l, (∃ n, n < 64 ∧ c = char64 n) ∨ c = '=' := by
  induction l using b64chunks.induct with
  | case1 a b c rest ih =>
    have ha : a < 256 := h a (by simp)
    have hb : b < 256 := h b (by simp)
    have hc : c < 256 := h c (by simp)
    intro x hx
    simp only [b64chunks, List.mem_cons] at hx
    rcases hx with rfl | rfl | rfl | rfl | hx
    · exact .inl ⟨_, by omega, rfl⟩
    · exact .inl ⟨_, by omega, rfl⟩
    · exact .inl ⟨_, by omega, rfl⟩
    · exact .inl ⟨_, by omega, rfl⟩
    · exact ih (fun x hx => h x (by simp [hx])) x hx
  | case2 a b =>
    have ha : a < 256 := h a (by simp)
    have hb : b < 256 := h b (by simp)
    intro x hx
    simp only [b64chunks, List.mem_cons] at hx
    rcases hx with rfl | rfl | rfl | rfl | hx
    · exact .inl ⟨_, by omega, rfl⟩
    · exact .inl ⟨_, by omega, rfl⟩
    · exact .inl ⟨_, by omega, rfl⟩
    · exact .inr rfl
    · simp at hx
  | case3 a =>
    have ha : a < 256 := h a (by simp)
    intro x hx
    simp only [b64chunks, List.mem_cons] at hx
    rcases hx with rfl | rfl | rfl | rfl | hx
    · exact .inl ⟨_, by omega, rfl⟩
    · exact .inl ⟨_, by omega, rfl⟩
    · exact .inr rfl
    · exact .inr rfl
    · simp at hx
  | case4 =>
    intro x hx
    simp [b64chunks] at hx

theorem b64_roundtrip {l : List Nat} (h : ∀ x ∈ l, x < 256) :
    b64decodeChunks (b64chunks l) = some l := by
  induction l using b64chunks.induct with
  | case1 a b c rest ih =>
    have ha : a < 256 := h a (by simp)
    have hb : b < 256 := h b (by simp)
    have hc : c < 256 := h c (by simp)
    have h1 := index64_char64 (a / 4) (by omega)
    have h2 := index64_char64 (a % 4 * 16 + b / 16) (by omega)
    have h3 := index64_char64 (b % 16 * 4 + c / 64) (by omega)
    have h4 := index64_char64 (c % 64) (by omega)
    have hn3 := char64_ne_pad (b % 16 * 4 + c / 64) (by omega)
    have hn4 := char64_ne_pad (c % 64) (by omega)
    have ih2 := ih (fun x hx => h x (by simp [hx]))
    simp only [b64chunks, b64decodeChunks, h1, h2, h3, h4, if_neg hn3, if_neg hn4, ih2,
      Option.map_some']
    refine congrArg some ?_
    have e1 : a / 4 * 4 + (a % 4 * 16 + b / 16) / 16 = a := by omega
    have e2 : (a % 4 * 16 + b / 16) % 16 * 16 + (b % 16 * 4 + c / 64) / 4 = b := by omega
    have e3 : (b % 16 * 4 + c / 64) % 4 * 64 + c % 64 = c := by omega
    rw [e1, e2, e3]
  | case2 a b =>
    have ha : a < 256 := h a (by simp)
    have hb : b < 256 := h b (by simp)
    have h1 := index64_char64 (a / 4) (by omega)
    have h2 := index64_char64 (a % 4 * 16 + b / 16) (by omega)
    have h3 := index64_char64 (b % 16 * 4) (by omega)
    have hn3 := char64_ne_pad (b % 16 * 4) (by omega)
    simp only [b64chunks, b64decodeChunks, h1, h2, h3, if_neg hn3, if_pos rfl]
    refine congrArg some ?_
    have e1 : a / 4 * 4 + (a % 4 * 16 + b / 16) / 16 = a := by omega
    have e2 : (a % 4 * 16 + b / 16) % 16 * 16 + b % 16 * 4 / 4 = b := by omega
    rw [e1, e2]
  | case3 a =>
    have ha : a < 256 := h a (by simp)
    have h1 := index64_char64 (a / 4) (by omega)
    have h2 := index64_char64 (a % 4 * 16) (by omega)
    simp only [b64chunks, b64decodeChunks, h1, h2, if_pos rfl]
    simp only [and_self]
    rw [if_pos trivial, if_pos trivial]
    refine congrArg some ?_
    have e1 : a / 4 * 4 + a % 4 * 16 / 16 = a := by omega
    rw [e1]
  | case4 => rfl

theorem unsanitize_data (s : String) :
    (unsanitize s).data = s.data.map unsubChar := rfl

set_option maxHeartbeats 1000000 in
theorem unsanitize_sanitize_b64encode {l : List Nat} (h : ∀ x ∈ l, x < 256) :
    unsanitize (_sanitize_b64 (b64encode l)) = b64encode l := by
  have hchars := b64chunks_chars h
  have hd : (unsanitize (_sanitize_b64 (b64encode l))).data = (b64encode l).data := by
    rw [unsanitize_data, sanitize_b64_data, List.map_map]
    have hb : (b64encode l).data = b64chunks l := rfl
    rw [hb]
    have hpt : ∀ c ∈ b64chunks l, (unsubChar ∘ sanitizeChar) c = id c := by
      intro c hc
      rcases hchars c hc with ⟨n, hn, rfl⟩ | rfl
      · exact sanitizeChar_char64 n hn
      · exact sanitizeChar_pad
    rw [List.map_congr_left hpt, List.map_id]
  exact congrArg String.mk hd

theorem char_toNat_valid (c : Char) :
    c.toNat < 0xD800 ∨ (0xE000 ≤ c.toNat ∧ c.toNat < 0x110000) := c.valid

theorem utf8Bytes_lt (c : Char) : ∀ x ∈ utf8Bytes c, x < 256 := by
  have hv := char_toNat_valid c
  intro x hx
  unfold utf8Bytes at hx
  split_ifs at hx with h1 h2 h3
  · simp at hx; omega
  · simp at hx; rcases hx with rfl | rfl <;> omega
  · simp at hx; rcases hx with rfl | rfl | rfl <;> omega
  · simp at hx; rcases hx with rfl | rfl | rfl | rfl <;> omega

theorem strUtf8_lt (s : String) : ∀ x ∈ strUtf8 s, x < 256 := by
  intro x hx
  unfold strUtf8 at hx
  rw [List.mem_flatMap] at hx
  obtain ⟨c, _, hc⟩ := hx
  exact utf8Bytes_lt c x hc

theorem utf8Decode_cons (c : Char) (rest : List Nat) :
    utf8DecodeList (utf8Bytes c ++ rest) = (utf8DecodeList rest).map (fun cs => c :: cs) := by
  have hv := char_toNat_valid c
  by_cases h1 : c.toNat < 0x80
  · have hb : utf8Bytes c = [c.toNat] := by
      unfold utf8Bytes
      rw [if_pos h1]
    rw [hb, List.cons_append, List.nil_append]
    simp only [utf8DecodeList]
    rw [if_pos h1, Char.ofNat_toNat]
  · by_cases h2 : c.toNat < 0x800
    · have hb : utf8Bytes c = [0xC0 + c.toNat / 64, 0x80 + c.toNat % 64] := by
        unfold utf8Bytes
        rw [if_neg h1, if_pos h2]
      rw [hb, List.cons_append, List.cons_append, List.nil_append]
      simp only [utf8DecodeList]
      rw [if_neg (by omega), if_neg (by omega), if_pos (by omega)]
      simp only [utf8Cont1]
      rw [if_pos (by omega)]
      have e : (0xC0 + c.toNat / 64 - 0xC0) * 64 + (0x80 + c.toNat % 64 - 0x80) = c.toNat := by
        omega
      rw [e, Char.ofNat_toNat]
    · by_cases h3 : c.toNat < 0x10000
      · have hb : utf8Bytes c =
            [0xE0 + c.toNat / 4096, 0x80 + c.toNat / 64 % 64, 0x80 + c.toNat % 64] := by
          unfold utf8Bytes
          rw [if_neg h1, if_neg h2, if_pos h3]
        rw [hb, List.cons_append, List.cons_append, List.cons_append, List.nil_append]
        simp only [utf8DecodeList]
        rw [if_neg (by omega), if_neg (by omega), if_neg (by omega), if_pos (by omega)]
        simp only [utf8Cont2]
        have e : (0xE0 + c.toNat / 4096 - 0xE0) * 4096 + (0x80 + c.toNat / 64 % 64 - 0x80) * 64 +
            (0x80 + c.toNat % 64 - 0x80) = c.toNat := by omega
        rw [e, if_pos (by omega), Char.ofNat_toNat]
      · have hb : utf8Bytes c =
            [0xF0 + c.toNat / 0x40000, 0x80 + c.toNat / 4096 % 64,
             0x80 + c.toNat / 64 % 64, 0x80 + c.toNat % 64] := by
          unfold utf8Bytes
          rw [if_neg h1, if_neg h2, if_neg h3]
        rw [hb, List.cons_append, List.cons_append, List.cons_append, List.cons_append,
          List.nil_append]
        simp only [utf8DecodeList]
        rw [if_neg (by omega), if_neg (by omega), if_neg (by omega), if_neg (by omega),
          if_pos (by omega)]
        simp only [utf8Cont3]
        have e : (0xF0 + c.toNat / 0x40000 - 0xF0) * 0x40000 +
            (0x80 + c.toNat / 4096 % 64 - 0x80) * 4096 +
            (0x80 + c.toNat / 64 % 64 - 0x80) * 64 + (0x80 + c.toNat % 64 - 0x80) = c.toNat := by
          omega
        rw [e, if_pos (by omega), Char.ofNat_toNat]

theorem utf8_roundtrip_list :
    ∀ cs : List Char, utf8DecodeList (cs.flatMap utf8Bytes) = some cs
  | [] => rfl
  | c :: cs => by
    rw [List.flatMap_cons, utf8Decode_cons, utf8_roundtrip_list cs]
    rfl

theorem utf8_roundtrip (s : String) : utf8DecodeStr (strUtf8 s) = some s := by
  unfold utf8DecodeStr strUtf8
  rw [utf8_roundtrip_list s.data]
  rfl

theorem decodePolicyCookie_roundtrip (ps : String) :
    decodePolicyCookie (_sanitize_b64 (b64encode (strUtf8 ps))) = some ps := by
  have hlt := strUtf8_lt ps
  unfold decodePolicyCookie
  rw [unsanitize_sanitize_b64encode hlt]
  have hb : b64decode (b64encode (strUtf8 ps)) = some (strUtf8 ps) := b64_roundtrip hlt
  rw [hb]
  exact utf8_roundtrip ps

/--
C1: canonicalization via `_to_json` is deterministic (it is a pure function
of the document), produces no trailing newline (the last character of an
object's rendering is a closing brace), removes every ASCII space byte —
including spaces inside string values, since the removal is a character
filter over the fully serialized string — so that stripping again is a
no-op, and renders object keys in construction order (the serialization of
an object is exactly the brace-wrapped, order-preserving rendering of its
entry list).
-/
theorem C1_to_json_canonical (d : PyDict) :
    (∀ c ∈ (_to_json (.obj d)).data, c ≠ ' ') ∧
    stripSpaces (_to_json (.obj d)) = _to_json (.obj d) ∧
    (_to_json (.obj d)).data.getLast? = some '\x7d' ∧
    (_to_json (.obj d)).data.getLast? ≠ some '\n' ∧
    _to_json (.obj d) = stripSpaces ("\x7b" ++ dumpEntries d ++ "\x7d") := by
  refine ⟨mem_stripSpaces_ne_space _, stripSpaces_idem _, ?_, ?_, rfl⟩
  · show ((stripSpaces (pyDumps (.obj d))).data).getLast? = some '\x7d'
    rw [stripSpaces_data, pyDumps_obj, data_append, data_append]
    show (List.filter _ (('\x7b' :: (dumpEntries d).data) ++ ['\x7d'])).getLast? = some '\x7d'
    rw [List.filter_append]
    have h2 : List.filter (fun c => decide (c ≠ ' ')) ['\x7d'] = ['\x7d'] := rfl
    rw [h2, List.getLast?_concat]
  · show ((stripSpaces (pyDumps (.obj d))).data).getLast? ≠ some '\n'
    rw [stripSpaces_data, pyDumps_obj, data_append, data_append]
    show (List.filter _ (('\x7b' :: (dumpEntries d).data) ++ ['\x7d'])).getLast? ≠ some '\n'
    rw [List.filter_append]
    have h2 : List.filter (fun c => decide (c ≠ ' ')) ['\x7d'] = ['\x7d'] := rfl
    rw [h2, List.getLast?_concat]
    intro h
    exact absurd (Option.some.inj h) (by decide)

/--
C2: for every cookie set `generate_cookies` produces, the CloudFront-Policy
value is the sanitized base64 of the UTF-8 bytes of the canonical policy
string, and reversing the three-character substitution then
base64-decoding and UTF-8-decoding that value yields exactly the canonical
JSON string that was passed to the signing step.
-/
theorem C2_policy_cookie_roundtrip (S : Signer) (now : Int) (rsaSign : SignRequest → List Nat)
    (Resource : String) (Policy : PyDict) (SecondsBeforeExpires : Int) (ps : String)
    (h : buildPolicyString now Resource Policy SecondsBeforeExpires = .ok ps) :
    generate_cookies S now rsaSign Resource Policy SecondsBeforeExpires =
      .ok (cookiesFrom S rsaSign ps) ∧
    cookieLookup (cookiesFrom S rsaSign ps) "CloudFront-Policy" =
      some (_sanitize_b64 (b64encode (strUtf8 ps))) ∧
    decodePolicyCookie (_sanitize_b64 (b64encode (strUtf8 ps))) = some ps := by
  refine ⟨?_, rfl, decodePolicyCookie_roundtrip ps⟩
  unfold generate_cookies
  rw [h]

/-- Witness for C2 on the canned path at concrete inputs. -/
theorem C2_policy_cookie_roundtrip_witness :
    (buildPolicyString 100 "x" [] 5 = .ok (_make_canned_policy "x" 105)) ∧
    (generate_cookies ⟨"keyid"⟩ 100 (fun _ => []) "x" [] 5 =
        .ok (cookiesFrom ⟨"keyid"⟩ (fun _ => []) (_make_canned_policy "x" 105)) ∧
      cookieLookup (cookiesFrom ⟨"keyid"⟩ (fun _ => []) (_make_canned_policy "x" 105))
          "CloudFront-Policy" =
        some (_sanitize_b64 (b64encode (strUtf8 (_make_canned_policy "x" 105)))) ∧
      decodePolicyCookie (_sanitize_b64 (b64encode (strUtf8 (_make_canned_policy "x" 105)))) =
        some (_make_canned_policy "x" 105)) :=
  ⟨rfl, C2_policy_cookie_roundtrip ⟨"keyid"⟩ 100 (fun _ => []) "x" [] 5
    (_make_canned_policy "x" 105) rfl⟩

/--
C3: every call to `_sign` hands the RSA primitive the UTF-8 bytes of the
canonical policy string together with PSS padding, MGF1 over SHA-384,
maximal salt length, and SHA-384 as the message hash; the scheme fields are
constants of the definition — `_sign` takes no configuration input, so the
scheme is identical on every call.
-/
theorem C3_sign_scheme_fixed (rsaSign : SignRequest → List Nat) (policy : String) :
    _sign rsaSign policy = rsaSign (signRequestFor policy) ∧
    (signRequestFor policy).data = strUtf8 policy ∧
    (signRequestFor policy).paddingMgf = .mgf1 .sha384 ∧
    (signRequestFor policy).paddingSaltLength = .maxLength ∧
    (signRequestFor policy).algorithm = .sha384 :=
  ⟨rfl, rfl, rfl, rfl, rfl⟩

/--
C6: with a non-empty Resource and no custom Policy, the policy document
that is canonicalized and signed is exactly the canned policy: one
statement carrying that Resource, whose condition mapping has the single
key DateLessThan with AWS:EpochTime equal to the current time plus
SecondsBeforeExpires (the clock enters the model as the whole-second epoch
integer `now`, so the equality is exact; the spec's small tolerance covers
only real clock read latency).
-/
theorem C6_canned_policy (S : Signer) (now : Int) (rsaSign : SignRequest → List Nat)
    (Resource : String) (SecondsBeforeExpires : Int) (hR : Resource ≠ "") :
    generate_cookies S now rsaSign Resource [] SecondsBeforeExpires =
      .ok (cookiesFrom S rsaSign
        (_to_json (cannedPolicyVal Resource (now + SecondsBeforeExpires)))) ∧
    cannedPolicyVal Resource (now + SecondsBeforeExpires) =
      .obj [("Statement", .arr [
        .obj [("Resource", .str Resource),
              ("Condition", .obj [("DateLessThan",
                .obj [("AWS:EpochTime", .int (now + SecondsBeforeExpires))])])]])] := by
  refine ⟨?_, rfl⟩
  have hbuild : buildPolicyString now Resource [] SecondsBeforeExpires =
      .ok (_make_canned_policy Resource (now + SecondsBeforeExpires)) := by
    unfold buildPolicyString
    rw [if_neg (show ¬(([] : PyDict).isEmpty = false) from by decide), if_neg hR]
  unfold generate_cookies
  rw [hbuild]
  rfl

/-- Witness for C6 at concrete inputs. -/
theorem C6_canned_policy_witness :
    ("https://cdn.example.com/video.mp4" ≠ "") ∧
    (generate_cookies ⟨"keyid"⟩ 1700000000 (fun _ => [])
        "https://cdn.example.com/video.mp4" [] 900 =
      .ok (cookiesFrom ⟨"keyid"⟩ (fun _ => [])
        (_to_json (cannedPolicyVal "https://cdn.example.com/video.mp4" (1700000000 + 900)))) ∧
    cannedPolicyVal "https://cdn.example.com/video.mp4" (1700000000 + 900) =
      .obj [("Statement", .arr [
        .obj [("Resource", .str "https://cdn.example.com/video.mp4"),
              ("Condition", .obj [("DateLessThan",
                .obj [("AWS:EpochTime", .int (1700000000 + 900))])])]])]) :=
  ⟨by decide, C6_canned_policy ⟨"keyid"⟩ 1700000000 (fun _ => [])
    "https://cdn.example.com/video.mp4" 900 (by decide)⟩

/--
C7: a non-empty Policy is validated and, when valid, serialized as-is — the
result does not depend on Resource or SecondsBeforeExpires, so a custom
policy takes precedence entirely; with an empty Policy and empty Resource
the call fails with ValueError; the canned path is taken exactly when
Policy is empty and Resource is non-empty.
-/
theorem C7_policy_selection (S : Signer) (now : Int) (rsaSign : SignRequest → List Nat)
    (Resource : String) (Policy : PyDict) (SecondsBeforeExpires : Int) :
    (Policy ≠ [] →
      generate_cookies S now rsaSign Resource Policy SecondsBeforeExpires =
        (match _validate_custom_policy Policy with
          | .ok _ => .ok (cookiesFrom S rsaSign (_to_json (.obj Policy)))
          | .error e => .error e)) ∧
    (Policy = [] → Resource = "" →
      generate_cookies S now rsaSign Resource Policy SecondsBeforeExpires =
        .error (.valueError "must provide a resource URL")) ∧
    (Policy = [] → Resource ≠ "" →
      generate_cookies S now rsaSign Resource Policy SecondsBeforeExpires =
        .ok (cookiesFrom S rsaSign
          (_make_canned_policy Resource (now + SecondsBeforeExpires)))) := by
  refine ⟨?_, ?_, ?_⟩
  · intro h
    cases Policy with
    | nil => exact absurd rfl h
    | cons p ps =>
      unfold generate_cookies buildPolicyString
      cases hv : _validate_custom_policy (p :: ps) with
      | ok u => rw [if_pos (show (p :: ps).isEmpty = false from rfl)]
      | error e => rw [if_pos (show (p :: ps).isEmpty = false from rfl)]
  · intro h1 h2
    subst h1
    unfold generate_cookies buildPolicyString
    rw [if_neg (show ¬(([] : PyDict).isEmpty = false) from by decide), if_pos h2]
  · intro h1 h2
    subst h1
    unfold generate_cookies buildPolicyString
    rw [if_neg (show ¬(([] : PyDict).isEmpty = false) from by decide), if_neg h2]

/-- Witness for C7: one concrete instantiation per branch. -/
theorem C7_policy_selection_witness :
    (generate_cookies ⟨"keyid"⟩ 0 (fun _ => []) "ignored"
        [("Statement", .obj [("Condition", .obj []), ("Resource", .str "r")])] 7 =
      .ok (cookiesFrom ⟨"keyid"⟩ (fun _ => [])
        (_to_json (.obj [("Statement",
          .obj [("Condition", .obj []), ("Resource", .str "r")])])))) ∧
    (generate_cookies ⟨"keyid"⟩ 0 (fun _ => []) "" [] 900 =
      .error (.valueError "must provide a resource URL")) ∧
    (generate_cookies ⟨"keyid"⟩ 0 (fun _ => []) "x" [] 900 =
      .ok (cookiesFrom ⟨"keyid"⟩ (fun _ => []) (_make_canned_policy "x" (0 + 900)))) :=
  ⟨((C7_policy_selection ⟨"keyid"⟩ 0 (fun _ => []) "ignored"
      [("Statement", .obj [("Condition", .obj []), ("Resource", .str "r")])] 7).1
      (List.cons_ne_nil _ _)).trans rfl,
   (C7_policy_selection ⟨"keyid"⟩ 0 (fun _ => []) "" [] 900).2.1 rfl rfl,
   (C7_policy_selection ⟨"keyid"⟩ 0 (fun _ => []) "x" [] 900).2.2 rfl (by decide)⟩

/--
C9: every successful result of `generate_cookies` is a mapping of exactly
three entries in order CloudFront-Policy, CloudFront-Signature,
CloudFront-Key-Pair-Id, and the key-pair-identifier value is the key id
given at construction, verbatim, with no encoding applied.
-/
theorem C9_cookie_mapping (S : Signer) (now : Int) (rsaSign : SignRequest → List Nat)
    (Resource : String) (Policy : PyDict) (SecondsBeforeExpires : Int)
    (c : List (String × String))
    (h : generate_cookies S now rsaSign Resource Policy SecondsBeforeExpires = .ok c) :
    c.length = 3 ∧
    c.map Prod.fst = ["CloudFront-Policy", "CloudFront-Signature", "CloudFront-Key-Pair-Id"] ∧
    cookieLookup c "CloudFront-Key-Pair-Id" = some S.cloudfront_key_id := by
  unfold generate_cookies at h
  cases hb : buildPolicyString now Resource Policy SecondsBeforeExpires with
  | error e =>
    rw [hb] at h
    exact absurd h (by simp)
  | ok ps =>
    rw [hb] at h
    have hc : c = cookiesFrom S rsaSign ps := by
      injection h with h2
      exact h2.symm
    subst hc
    exact ⟨rfl, rfl, rfl⟩

/-- Witness for C9 at concrete inputs. -/
theorem C9_cookie_mapping_witness :
    (generate_cookies ⟨"keyid"⟩ 0 (fun _ => []) "x" [] 900 =
      .ok (cookiesFrom ⟨"keyid"⟩ (fun _ => []) (_make_canned_policy "x" (0 + 900)))) ∧
    ((cookiesFrom ⟨"keyid"⟩ (fun _ => []) (_make_canned_policy "x" (0 + 900))).length = 3 ∧
      (cookiesFrom ⟨"keyid"⟩ (fun _ => []) (_make_canned_policy "x" (0 + 900))).map Prod.fst =
        ["CloudFront-Policy", "CloudFront-Signature", "CloudFront-Key-Pair-Id"] ∧
      cookieLookup (cookiesFrom ⟨"keyid"⟩ (fun _ => []) (_make_canned_policy "x" (0 + 900)))
        "CloudFront-Key-Pair-Id" = some (Signer.mk "keyid").cloudfront_key_id) :=
  ⟨rfl, C9_cookie_mapping ⟨"keyid"⟩ 0 (fun _ => []) "x" [] 900
    (cookiesFrom ⟨"keyid"⟩ (fun _ => []) (_make_canned_policy "x" (0 + 900))) rfl⟩

/--
C4: the first conjunct shows the code at the claim's failing input — a
policy whose IpAddress condition holds a non-string AWS:SourceIp value is
accepted, because the source compares the sub-key against the condition
kind name IpAddress instead of AWS:SourceIp, so the string-type check never
fires; the second conjunct shows the AWS:EpochTime half of the claim does
hold: a string epoch value is rejected naming the expected and actual type.
-/
theorem C4_sourceip_check_dead :
    _validate_custom_policy
      [("Statement", .arr [.obj [("Resource", .str "https://x/y"),
        ("Condition", .obj [("IpAddress", .obj [("AWS:SourceIp", .int 5)])])]])] = .ok () ∧
    _validate_custom_policy
      [("Statement", .arr [.obj [("Resource", .str "https://x/y"),
        ("Condition", .obj [("DateLessThan", .obj [("AWS:EpochTime", .str "1700000000")])])]])] =
      .error (.invalidCustomPolicy
        "AWS:EpochTime value must be of type \x27int\x27, not <class \x27str\x27>") :=
  ⟨rfl, rfl⟩

/--
C5: the code at the claim's failing inputs — a truthy Statement value that
is neither a dict nor a list falls through validation with the initial
empty bindings and is accepted silently, and a statement list whose first
element is not a dict raises an uncaught subscript TypeError, not
InvalidPolicy; both contradict the claim that every schema violation fails
with InvalidPolicy.
-/
theorem C5_validator_accepts_malformed :
    _validate_custom_policy [("Statement", .int 5)] = .ok () ∧
    _validate_custom_policy [("Statement", .arr [.int 7])] =
      .error (.typeError "<class \x27int\x27> object is not subscriptable") :=
  ⟨rfl, rfl⟩

/--
C10: a custom policy whose examined statement has a string Resource and an
empty Condition mapping is accepted: the condition loop runs zero times and
the resource type check passes, whether the Statement value is a single
dict or a list examined at element 0.
-/
theorem C10_empty_condition_accepted (policy : PyDict) (sd : PyDict) (stmts : JVal)
    (rest : List JVal) (r : String)
    (hs : pyLookup policy "Statement" = some stmts)
    (hshape : stmts = .obj sd ∨ stmts = .arr (.obj sd :: rest))
    (hc : pyLookup sd "Condition" = some (.obj []))
    (hr : pyLookup sd "Resource" = some (.str r)) :
    _validate_custom_policy policy = .ok () := by
  have hsd : sd ≠ [] := by
    intro h
    subst h
    simp [pyLookup] at hc
  have hget : getCondRes (.obj sd) = .ok (.obj [], .str r) := by
    simp only [getCondRes, getItem, hc, hr]
  unfold _validate_custom_policy
  rw [hs]
  rcases hshape with rfl | rfl
  · have ht : pyTruthy (.obj sd) = true := by
      cases sd with
      | nil => exact absurd rfl hsd
      | cons a l => rfl
    simp only [ht, condResOf, hget]
    rfl
  · have ht : pyTruthy (.arr (.obj sd :: rest)) = true := rfl
    simp only [ht, condResOf, hget]
    rfl

/-- Witness for C10 at a concrete policy. -/
theorem C10_empty_condition_accepted_witness :
    (pyLookup [("Statement", .arr [.obj [("Condition", .obj []), ("Resource", .str "https://x")]])]
        "Statement" =
      some (.arr [.obj [("Condition", .obj []), ("Resource", .str "https://x")]])) ∧
    (pyLookup [("Condition", .obj []), ("Resource", .str "https://x")] "Condition" =
      some (.obj [])) ∧
    (pyLookup [("Condition", .obj []), ("Resource", .str "https://x")] "Resource" =
      some (.str "https://x")) ∧
    _validate_custom_policy
      [("Statement", .arr [.obj [("Condition", .obj []), ("Resource", .str "https://x")]])] =
      .ok () :=
  ⟨rfl, rfl, rfl,
    C10_empty_condition_accepted
      [("Statement", .arr [.obj [("Condition", .obj []), ("Resource", .str "https://x")]])]
      [("Condition", .obj []), ("Resource", .str "https://x")]
      (.arr [.obj [("Condition", .obj []), ("Resource", .str "https://x")]])
      [] "https://x" rfl (.inr rfl) rfl rfl⟩

/-- Property of a consumer of a character list: an accepted input splits
into an exactly consumed prefix and the rest, and acceptance is stable
under appending a suffix. -/
def stepOk (f : List Char → Option (List Char)) : Prop :=
  (∀ p r, f p = some r → ∃ q, p = q ++ r ∧ f q = some []) ∧
  (∀ p r t, f p = some r → f (p ++ t) = some (r ++ t))

theorem takeHex_split (n : Nat) : ∀ (p r : List Char), takeHex n p = some r →
    ∃ q, p = q ++ r ∧ takeHex n q = some [] := by
  induction n with
  | zero =>
    intro p r h
    simp only [takeHex, Option.some.injEq] at h
    subst h
    exact ⟨[], rfl, rfl⟩
  | succ n ih =>
    intro p r h
    cases p with
    | nil => exact absurd h (by simp [takeHex])
    | cons c cs =>
      simp only [takeHex] at h
      by_cases hc : isHexLower c
      · rw [if_pos hc] at h
        obtain ⟨q, hq, hq2⟩ := ih cs r h
        refine ⟨c :: q, by rw [hq]; rfl, ?_⟩
        simp only [takeHex]
        rw [if_pos hc]
        exact hq2
      · rw [if_neg hc] at h
        exact absurd h (by simp)

theorem takeHex_append (n : Nat) : ∀ (p r t : List Char), takeHex n p = some r →
    takeHex n (p ++ t) = some (r ++ t) := by
  induction n with
  | zero =>
    intro p r t h
    simp only [takeHex, Option.some.injEq] at h
    subst h
    rfl
  | succ n ih =>
    intro p r t h
    cases p with
    | nil => exact absurd h (by simp [takeHex])
    | cons c cs =>
      simp only [takeHex, List.cons_append] at h ⊢
      by_cases hc : isHexLower c
      · rw [if_pos hc] at h ⊢
        exact ih cs r t h
      · rw [if_neg hc] at h
        exact absurd h (by simp)

theorem takeDash_split : ∀ (p r : List Char), takeDash p = some r →
    ∃ q, p = q ++ r ∧ takeDash q = some [] := by
  intro p r h
  cases p with
  | nil => exact absurd h (by simp [takeDash])
  | cons c cs =>
    simp only [takeDash] at h
    by_cases hc : c = '-'
    · rw [if_pos hc] at h
      obtain rfl := Option.some.inj h
      subst hc
      exact ⟨['-'], rfl, rfl⟩
    · rw [if_neg hc] at h
      exact absurd h (by simp)

theorem takeDash_append : ∀ (p r t : List Char), takeDash p = some r →
    takeDash (p ++ t) = some (r ++ t) := by
  intro p r t h
  cases p with
  | nil => exact absurd h (by simp [takeDash])
  | cons c cs =>
    simp only [takeDash, List.cons_append] at h ⊢
    by_cases hc : c = '-'
    · rw [if_pos hc] at h ⊢
      obtain rfl := Option.some.inj h
      rfl
    · rw [if_neg hc] at h
      exact absurd h (by simp)

theorem takeHex_stepOk (n : Nat) : stepOk (takeHex n) :=
  ⟨takeHex_split n, takeHex_append n⟩

theorem takeDash_stepOk : stepOk takeDash :=
  ⟨takeDash_split, takeDash_append⟩

/-- Sequential composition of consumers. -/
def runSteps : List (List Char → Option (List Char)) → List Char → Option (List Char)
  | [], cs => some cs
  | f :: fs, cs => (f cs).bind (runSteps fs)

theorem runSteps_stepOk : ∀ fs, (∀ f ∈ fs, stepOk f) → stepOk (runSteps fs) := by
  intro fs
  induction fs with
  | nil =>
    intro _
    constructor
    · intro p r h
      obtain rfl := Option.some.inj h
      exact ⟨[], rfl, rfl⟩
    · intro p r t h
      obtain rfl := Option.some.inj h
      rfl
  | cons f fs ih =>
    intro hall
    have hf : stepOk f := hall f (by simp)
    have hfs : stepOk (runSteps fs) := ih (fun g hg => hall g (by simp [hg]))
    constructor
    · intro p r h
      simp only [runSteps] at h
      cases hmid : f p with
      | none =>
        rw [hmid] at h
        exact absurd h (by simp)
      | some mid =>
        rw [hmid] at h
        rw [show (some mid).bind (runSteps fs) = runSteps fs mid from rfl] at h
        obtain ⟨q1, hq1, hq1e⟩ := hf.1 p mid hmid
        obtain ⟨q2, hq2, hq2e⟩ := hfs.1 mid r h
        refine ⟨q1 ++ q2, ?_, ?_⟩
        · rw [hq1, hq2, List.append_assoc]
        · simp only [runSteps]
          have hstep := hf.2 q1 [] q2 hq1e
          rw [List.nil_append] at hstep
          rw [hstep]
          exact hq2e
    · intro p r t h
      simp only [runSteps] at h ⊢
      cases hmid : f p with
      | none =>
        rw [hmid] at h
        exact absurd h (by simp)
      | some mid =>
        rw [hmid] at h
        rw [show (some mid).bind (runSteps fs) = runSteps fs mid from rfl] at h
        rw [hf.2 p mid t hmid]
        rw [show (some (mid ++ t)).bind (runSteps fs) = runSteps fs (mid ++ t) from rfl]
        exact hfs.2 mid r t h

theorem opt_bind_some_eta {α : Type} (o : Option α) : o.bind some = o := by
  cases o <;> rfl

theorem uuidChain_eq_runSteps (cs : List Char) :
    uuidChain cs = runSteps [takeHex 8, takeDash, takeHex 4, takeDash, takeHex 4, takeDash,
      takeHex 4, takeDash, takeHex 12] cs := by
  unfold uuidChain
  simp only [runSteps, opt_bind_some_eta]

theorem uuidChain_stepOk : stepOk uuidChain := by
  have hlist : ∀ f ∈ [takeHex 8, takeDash, takeHex 4, takeDash, takeHex 4, takeDash,
      takeHex 4, takeDash, takeHex 12], stepOk f := by
    intro f hf
    simp only [List.mem_cons, List.not_mem_nil, or_false] at hf
    rcases hf with rfl | rfl | rfl | rfl | rfl | rfl | rfl | rfl | rfl
    exacts [takeHex_stepOk 8, takeDash_stepOk, takeHex_stepOk 4, takeDash_stepOk,
      takeHex_stepOk 4, takeDash_stepOk, takeHex_stepOk 4, takeDash_stepOk, takeHex_stepOk 12]
  have hrun := runSteps_stepOk _ hlist
  constructor
  · intro p r h
    rw [uuidChain_eq_runSteps] at h
    obtain ⟨q, hq, hqe⟩ := hrun.1 p r h
    exact ⟨q, hq, by rw [uuidChain_eq_runSteps]; exact hqe⟩
  · intro p r t h
    rw [uuidChain_eq_runSteps] at h ⊢
    exact hrun.2 p r t h

/--
C8 (corrected): construction succeeds for every key id in strict
8-4-4-4-12 lowercase-hex UUID format given a resolvable key source, and the
format check runs before the key source is consulted — when the match
fails, construction fails with the InvalidCloudFrontKeyId error no matter
whether the key resolves.  However the accepted set is not exactly the
UUID-format strings: because Python's dollar anchor also matches just
before a single final newline, `re.match` accepts exactly the strict UUID
strings plus those consisting of a UUID followed by one trailing newline.
-/
theorem C8_key_id_check (s : String) (ke : Bool) :
    (specUuidFormat s = true → Signer.init s true = .ok ⟨s⟩) ∧
    (reMatchKeyId s = false →
      Signer.init s ke =
        .error (.invalidCloudFrontKeyId "CloudFront public key ID must be a UUID string")) ∧
    (reMatchKeyId s = true ↔
      specUuidFormat s = true ∨ ∃ t : String, s = t ++ "\n" ∧ specUuidFormat t = true) := by
  have hiff : reMatchKeyId s = true ↔
      specUuidFormat s = true ∨ ∃ t : String, s = t ++ "\n" ∧ specUuidFormat t = true := by
    constructor
    · intro hm
      unfold reMatchKeyId at hm
      cases h : uuidChain s.data with
      | none =>
        rw [h] at hm
        exact absurd hm (by simp)
      | some rest =>
        rw [h] at hm
        rcases of_decide_eq_true hm with rfl | rfl
        · exact Or.inl (decide_eq_true h)
        · obtain ⟨q, hq, hqe⟩ := uuidChain_stepOk.1 s.data ['\n'] h
          refine Or.inr ⟨⟨q⟩, ?_, decide_eq_true ?_⟩
          · exact congrArg String.mk hq
          · exact hqe
    · intro hor
      rcases hor with hsp | ⟨t, rfl, ht⟩
      · have h := of_decide_eq_true hsp
        unfold reMatchKeyId
        rw [h]
        rfl
      · have h := of_decide_eq_true ht
        have happ := uuidChain_stepOk.2 t.data [] ['\n'] h
        rw [List.nil_append] at happ
        unfold reMatchKeyId
        rw [show (t ++ "\n").data = t.data ++ ['\n'] from rfl, happ]
        rfl
  refine ⟨?_, ?_, hiff⟩
  · intro hsp
    have hm : reMatchKeyId s = true := hiff.mpr (Or.inl hsp)
    unfold Signer.init
    rw [hm]
    rfl
  · intro hm
    unfold Signer.init
    rw [hm]
    rfl

/-- Counterexample to C8 as stated: a valid UUID followed by a single
trailing newline is not of UUID format, yet construction succeeds. -/
theorem C8_key_id_check_counterexample :
    specUuidFormat "550e8400-e29b-41d4-a716-446655440000\n" = false ∧
    Signer.init "550e8400-e29b-41d4-a716-446655440000\n" true =
      .ok ⟨"550e8400-e29b-41d4-a716-446655440000\n"⟩ :=
  ⟨rfl, rfl⟩

/-- Witness for C8 at a valid UUID and at a rejected string. -/
theorem C8_key_id_check_witness :
    Signer.init "550e8400-e29b-41d4-a716-446655440000" true =
      .ok ⟨"550e8400-e29b-41d4-a716-446655440000"⟩ ∧
    Signer.init "not-a-uuid" false =
      .error (.invalidCloudFrontKeyId "CloudFront public key ID must be a UUID string") :=
  ⟨(C8_key_id_check "550e8400-e29b-41d4-a716-446655440000" true).1 rfl,
   (C8_key_id_check "not-a-uuid" false).2.1 rfl⟩

end CFSC
